import Mathlib

/-!
Verification of the serial communication engine of `node-pololu-maestro`
(the `Master` class) against its natural-language specification.

The engine is embedded shallowly:
* the command codec (frame builders and the position decoder) becomes pure
  functions on `Nat` and `List Nat`;
* the event-driven engine (request queue, response handlers, response buffer)
  becomes an explicit state machine `EngineState` with a `step` function over
  the external events the JavaScript runtime can deliver (an API call, a
  serial-port write completion, inbound data, a timer firing, port
  open/close);
* JavaScript numbers are modelled as `Nat` (all quantities involved are
  non-negative and far below 2^31, where JS bitwise operators are exact);
* `undefined` is modelled as `none : Option Nat` where it matters.

Sources: the `Master` class (request queue, response correlator, codec,
control API).  The `BufferQueueReader` used for the response buffer comes
from the external `h5.buffers` package whose code is not part of the
repository; the operations the engine uses (`push`, `length`,
`shiftBuffer`, `skip`) are modelled from the spec where marked.
-/

namespace Maestro

/-! ### Command codec -/

/-- `setTarget`: `Buffer.from([0xAA, device, 0x04, channel, target & 0x7F,
(target >> 7) & 0x7F])`. -/
def setTargetFrame (device channel target : Nat) : List Nat :=
  [0xAA, device, 0x04, channel, target &&& 0x7F, (target >>> 7) &&& 0x7F]

/-- `setMultipleTargets`: header `[0xAA, device, 0x1F, targets.length, channel]`
followed by the low7/high7 pair of each target. -/
def setMultipleTargetsFrame (device channel : Nat) (targets : List Nat) : List Nat :=
  [0xAA, device, 0x1F, targets.length, channel] ++
    (targets.map (fun t => [t &&& 0x7F, (t >>> 7) &&& 0x7F])).flatten

/-- `getPosition`: `Buffer.from([0xAA, device, 0x10, channel])`. -/
def getPositionFrame (device channel : Nat) : List Nat :=
  [0xAA, device, 0x10, channel]

/-- `getPosition` response decoding:
`((responseFrame[1] << 8) + responseFrame[0]) & 0xFFFF`.
(The response frame always has exactly two bytes; out-of-range reads are given
the default `0`, which the engine never relies on.) -/
def decodePosition (responseFrame : List Nat) : Nat :=
  ((responseFrame.getD 1 0 <<< 8) + responseFrame.getD 0 0) &&& 0xFFFF

/-! ### The event-driven engine -/

/-- How a request's callback behaves: `requestAndForget` resolves as soon as
the write completes; `requestAndResponse` registers a response handler that
expects `len` bytes. -/
inductive ReqKind where
  | forget
  | response (len : Nat)
deriving DecidableEq, Repr

/-- A pending request as stored in `this.requestQueue`: the frame to write and
(via `id` and `kind`) the callback captured with it.  `id` is the issue-order
index of the operation, used to report outcomes. -/
structure Req where
  id : Nat
  frame : List Nat
  kind : ReqKind
deriving DecidableEq, Repr

/-- A response handler as stored in `this.responseHandlers`: the expected
response length and (via `reqId`) the callback's captured request. -/
structure Handler where
  reqId : Nat
  responseLength : Nat
deriving DecidableEq, Repr

/-- The errors the engine produces, as distinguished by their messages. -/
inductive EngineErr where
  | serialPortClosed
  | writeError
  | responseTimeout
deriving DecidableEq, Repr

/-- How an operation settled: resolved (with the raw response frame for
response-expecting requests, `[]` for fire-and-forget ones) or rejected. -/
inductive Outcome where
  | resolved (responseFrame : List Nat)
  | rejected (err : EngineErr)
deriving DecidableEq, Repr

/-- The engine state.  `serialOpen`, `requestQueue`, `responseHandlers` and
`responseBuffer` mirror the fields of `Master`; the rest is instrumentation:
`inFlight` holds the requests whose `serialPort.write` completion callback has
not fired yet (the transport contract allows at most one, but the model lets
the list grow so that the at-most-one property is provable, not assumed);
`written` is the trace of frames handed to `serialPort.write`, in call order;
`issued` is the trace of requests that passed the open-port check, in call
order; `log` records each operation's outcome as its callback runs. -/
structure EngineState where
  serialOpen : Bool
  requestQueue : List Req
  responseHandlers : List Handler
  responseBuffer : List Nat
  inFlight : List Req
  written : List (List Nat)
  issued : List Req
  log : List (Nat × Outcome)
  nextId : Nat
deriving DecidableEq, Repr

/-- The state right after the constructor ran (the port not yet open). -/
def initState : EngineState :=
  { serialOpen := false
    requestQueue := []
    responseHandlers := []
    responseBuffer := []
    inFlight := []
    written := []
    issued := []
    log := []
    nextId := 0 }

/-- `writeNextRequest()`: if the queue is non-empty, call
`serialPort.write(this.requestQueue[0].frame, ...)`.  Starting the write is
recorded by appending the frame to `written` and the request (captured by the
write-completion closure) to `inFlight`; the completion callback itself runs
at a later `writeDone` event. -/
def writeNextRequest (s : EngineState) : EngineState :=
  match s.requestQueue with
  | [] => s
  | r :: _ =>
      { s with inFlight := s.inFlight ++ [r], written := s.written ++ [r.frame] }

/-- The continuation passed to a request's callback on write success:
`this.requestQueue.shift(); if (this.requestQueue.length) this.writeNextRequest();`. -/
def complete (s : EngineState) : EngineState :=
  let s1 := { s with requestQueue := s.requestQueue.tail }
  if s1.requestQueue.isEmpty then s1 else writeNextRequest s1

/-- `request(requestFrame, done)`: fail synchronously when the port is closed;
otherwise push the request and, if it is alone in the queue, dispatch it.
(`nextId` numbers every attempted operation so outcomes can be reported.) -/
def request (frame : List Nat) (kind : ReqKind) (s : EngineState) : EngineState :=
  if !s.serialOpen then
    { s with log := s.log ++ [(s.nextId, .rejected .serialPortClosed)]
             nextId := s.nextId + 1 }
  else
    let r : Req := { id := s.nextId, frame := frame, kind := kind }
    let s1 := { s with requestQueue := s.requestQueue ++ [r]
                       issued := s.issued ++ [r]
                       nextId := s.nextId + 1 }
    if s1.requestQueue.length == 1 then writeNextRequest s1 else s1

/-- The write-completion callback registered by `writeNextRequest`, fired by
the transport for the oldest outstanding write.  On error: `requestQueue.shift()`
then `request.callback(err)` (the operation rejects; note that no new dispatch
happens).  On success: `request.callback(null, complete)` — a fire-and-forget
request runs `complete()` then resolves; a response-expecting request registers
its response handler (arming the timeout) and leaves `complete` for the
handler's callback. -/
def writeDone (ok : Bool) (s : EngineState) : EngineState :=
  match s.inFlight with
  | [] => s
  | r :: rest =>
      let s1 := { s with inFlight := rest }
      if ok then
        match r.kind with
        | .forget =>
            let s2 := complete s1
            { s2 with log := s2.log ++ [(r.id, .resolved [])] }
        | .response len =>
            { s1 with responseHandlers :=
                s1.responseHandlers ++ [{ reqId := r.id, responseLength := len }] }
      else
        { s1 with requestQueue := s1.requestQueue.tail
                  log := s1.log ++ [(r.id, .rejected .writeError)] }

/-- `onSerialPortData(data)`: drop the bytes when no handler is outstanding;
otherwise buffer them, and if the head handler's expected length is met,
remove the handler (its timer is cleared), extract the frame, run the
handler's callback (`complete()` then resolve with the frame), and finally —
`if (this.responseBuffer.length && !this.responseHandlers.length)
this.responseBuffer.skip()`.
Modelled from the spec: `BufferQueueReader.skip` — code of the external
`h5.buffers` package, not under src/ — discards all remaining buffered
bytes ("the buffer discards them"). -/
def onSerialPortData (bytes : List Nat) (s : EngineState) : EngineState :=
  match s.responseHandlers with
  | [] => s
  | h :: hs =>
      let buf := s.responseBuffer ++ bytes
      if buf.length < h.responseLength then
        { s with responseBuffer := buf }
      else
        let frame := buf.take h.responseLength
        let s1 := { s with responseHandlers := hs
                           responseBuffer := buf.drop h.responseLength }
        let s2 := complete s1
        let s3 := { s2 with log := s2.log ++ [(h.reqId, .resolved frame)] }
        if !s3.responseBuffer.isEmpty && s3.responseHandlers.isEmpty then
          { s3 with responseBuffer := [] }
        else s3

/-- The timeout armed by `requestAndResponse`, firing for the handler that
carries `hid`.  A fired timer means `clearTimeout` never ran, i.e. the handler
is still in the list; a timer whose handler was already satisfied cannot fire,
which the guard reflects.  The callback removes the handler by identity
(`indexOf`/`splice`) and runs it with the timeout error, which in turn runs
`complete()` and rejects the operation. -/
def timeoutFire (hid : Nat) (s : EngineState) : EngineState :=
  if (s.responseHandlers.filter (fun h => h.reqId == hid)).isEmpty then s
  else
    let s1 := { s with responseHandlers :=
        s.responseHandlers.eraseP (fun h => h.reqId == hid) }
    let s2 := complete s1
    { s2 with log := s2.log ++ [(hid, .rejected .responseTimeout)] }

/-- The external events that drive the engine; each JavaScript event-loop
turn runs exactly one of them to completion. -/
inductive Event where
  | issue (frame : List Nat) (kind : ReqKind)
  | writeDone (ok : Bool)
  | data (bytes : List Nat)
  | timeout (hid : Nat)
  | portOpen
  | portClose
deriving DecidableEq, Repr

/-- One event-loop turn. -/
def step (e : Event) (s : EngineState) : EngineState :=
  match e with
  | .issue frame kind => request frame kind s
  | .writeDone ok => writeDone ok s
  | .data bytes => onSerialPortData bytes s
  | .timeout hid => timeoutFire hid s
  | .portOpen => { s with serialOpen := true }
  | .portClose => { s with serialOpen := false }

/-- Run a sequence of events from the initial state. -/
def runEvents (es : List Event) : EngineState :=
  es.foldl (fun s e => step e s) initState

/-- The states reachable from the initial state. -/
inductive Reachable : EngineState → Prop where
  | init : Reachable initState
  | step (e : Event) {s : EngineState} : Reachable s → Reachable (step e s)

/-- The inductive invariant of the engine.  `written_eq` says the frames
handed to the transport are exactly the frames of the first `written.length`
issued requests, in issue order; `inFlight_le` bounds the outstanding writes
by one; `inFlight_head` pins an outstanding write to the request at the head
of the queue (with no handler pending); `handlers_le`/`handlers_inFlight`
bound the handler list by one and forbid a pending handler while a write is
outstanding; `queue_idle`/`queue_busy` say the queue is always the issue
trace minus the completed requests — including the head when its dispatch is
still pending (`idle`), or starting at the dispatched head (`busy`). -/
structure Inv (s : EngineState) : Prop where
  written_eq : s.written = (s.issued.take s.written.length).map Req.frame
  written_le : s.written.length ≤ s.issued.length
  inFlight_le : s.inFlight.length ≤ 1
  handlers_le : s.responseHandlers.length ≤ 1
  inFlight_head : ∀ r, s.inFlight = [r] →
      s.requestQueue.head? = some r ∧ s.responseHandlers = []
  handlers_inFlight : ∀ h hs, s.responseHandlers = h :: hs → s.inFlight = []
  queue_idle : (s.inFlight = [] ∧ s.responseHandlers = []) →
      s.requestQueue = s.issued.drop s.written.length
  queue_busy : ¬ (s.inFlight = [] ∧ s.responseHandlers = []) →
      s.requestQueue = s.issued.drop (s.written.length - 1) ∧ 1 ≤ s.written.length

/-- The Control API operations, as the `issue` events they reduce to. -/
def setTargetEvent (device channel target : Nat) : Event :=
  .issue (setTargetFrame device channel target) .forget

def setMultipleTargetsEvent (device channel : Nat) (targets : List Nat) : Event :=
  .issue (setMultipleTargetsFrame device channel targets) .forget

def getPositionEvent (device channel : Nat) : Event :=
  .issue (getPositionFrame device channel) (.response 2)

/-! ### `getMultiplePositions`

The `for (let channel of channels)` loop awaits each `getPosition` before
starting the next, so it is embedded as structural recursion over the channel
list.  The behaviour of one `getPosition` call is abstracted by an `oracle`
from the channel to its outcome (a position, or the rejection message).  The
JS `result` object keyed by the (distinct) channels is modelled as the
association list built in iteration order.  The first component of the result
instruments which channels a `getPosition` was actually issued for. -/

/-- `new Error('Failed to get position for channel device:channel: msg')`. -/
def getMultiplePositionsFailMsg (device channel : Nat) (msg : String) : String :=
  s!"Failed to get position for channel {device}:{channel}: {msg}"

def getMultiplePositions (device : Nat) (oracle : Nat → Except String Nat) :
    List Nat → List Nat × Except String (List (Nat × Nat))
  | [] => ([], .ok [])
  | c :: rest =>
      match oracle c with
      | .error msg => ([c], .error (getMultiplePositionsFailMsg device c msg))
      | .ok pos =>
          let r := getMultiplePositions device oracle rest
          (c :: r.1, r.2.map (fun m => (c, pos) :: m))

/-- The position an oracle reports for a channel it succeeds on. -/
def posOf (oracle : Nat → Except String Nat) (c : Nat) : Nat :=
  match oracle c with
  | .ok p => p
  | .error _ => 0

/-! ### The verification step of `trySetMultipleTargets`

`trySetMultipleTargets` writes the batch, reads the positions back with
`getMultiplePositions`, and then runs
`options.targets.forEach(({channel, target}) => ...)`.
The elements of `options.targets` are the target numbers (that is how
`setMultipleTargets` consumes them, and how the mapping
`options.targets.map((v, i) => options.channel + i)` on the line above treats
them), so the destructuring binds `channel` and `target` to `undefined`. -/

/-- A JS number has no own properties: reading `.channel` or `.target` off an
element of the numeric `targets` array yields `undefined` (modelled `none`). -/
def numberProp (_t : Nat) (_field : String) : Option Nat := none

/-- JS member access `obj[key]`: with `key === undefined` the lookup misses
the numeric keys of the readback object and yields `undefined`. -/
def indexAt (m : Nat → Option Nat) : Option Nat → Option Nat
  | none => none
  | some c => m c

/-- The condition `actualTarget !== target` tested inside the `forEach`, for
one element `t` of `options.targets` (strict inequality on possibly-undefined
values). -/
def mismatchCheck (actualTargets : Nat → Option Nat) (t : Nat) : Bool :=
  indexAt actualTargets (numberProp t "channel") != numberProp t "target"

/-- `undefined` stringifies as `"undefined"` inside a template literal. -/
def optNatToString : Option Nat → String
  | none => "undefined"
  | some n => toString n

/-- The verification `.then` of `trySetMultipleTargets`, run after both the
batched write and the `getMultiplePositions` readback succeeded
(`actualTargets` is the successful readback): iterate `options.targets`,
destructure `{channel, target}` from each element, and throw on the first
element whose `actualTargets[channel] !== target`. -/
def verifyMultipleTargets (device : Nat) (targets : List Nat)
    (actualTargets : Nat → Option Nat) : Except String Unit :=
  match targets.find? (mismatchCheck actualTargets) with
  | some t =>
      .error ("Expected the target of " ++ toString device ++ ":"
        ++ optNatToString (numberProp t "channel") ++ " to be "
        ++ optNatToString (numberProp t "target") ++ ", got: "
        ++ optNatToString (indexAt actualTargets (numberProp t "channel")) ++ ".")
  | none => .ok ()

/-! ### Concrete fixtures used by witnesses and counterexamples -/

/-- A readback in which channel 0 reports position 5999. -/
def readbackAt0 : Nat → Option Nat :=
  fun c => if c = 0 then some 5999 else none

/-- Per-channel outcomes for the `getMultiplePositions` scenario: channel 0
reads 100, channel 1 times out, channel 2 would read 200. -/
def oracleFailAt1 : Nat → Except String Nat :=
  fun c =>
    if c = 0 then .ok 100
    else if c = 1 then .error "Response timeout."
    else .ok 200

/-! ### Helper lemmas -/

lemma mismatchCheck_false (actualTargets : Nat → Option Nat) (t : Nat) :
    mismatchCheck actualTargets t = false := by
  simp [mismatchCheck, numberProp, indexAt]

lemma getMultiplePositions_ok (device : Nat) (oracle : Nat → Except String Nat)
    (channels : List Nat) (hall : ∀ c ∈ channels, ∃ q, oracle c = .ok q) :
    getMultiplePositions device oracle channels =
      (channels, .ok (channels.map (fun c => (c, posOf oracle c)))) := by
  induction channels with
  | nil => rfl
  | cons c rest ih =>
      obtain ⟨q, hq⟩ := hall c (by simp)
      have hr := ih (fun x hx => hall x (by simp [hx]))
      simp [getMultiplePositions, hq, hr, posOf, Except.map]

lemma getMultiplePositions_fail (device : Nat) (oracle : Nat → Except String Nat)
    (pre : List Nat) (c : Nat) (post : List Nat) (msg : String)
    (hpre : ∀ x ∈ pre, ∃ q, oracle x = .ok q) (hc : oracle c = .error msg) :
    getMultiplePositions device oracle (pre ++ c :: post) =
      (pre ++ [c], .error (getMultiplePositionsFailMsg device c msg)) := by
  induction pre with
  | nil => simp [getMultiplePositions, hc]
  | cons x pre ih =>
      obtain ⟨q, hq⟩ := hpre x (by simp)
      have hr := ih (fun y hy => hpre y (by simp [hy]))
      simp [getMultiplePositions, hq, hr, Except.map]

lemma decodePosition_pair (lo hi : Nat) :
    decodePosition [lo, hi] = ((hi <<< 8) + lo) % 65536 := by
  show ((hi <<< 8) + lo) &&& 65535 = ((hi <<< 8) + lo) % 65536
  exact Nat.and_pow_two_sub_one_eq_mod _ 16

lemma inv_transfer {s t : EngineState} (h : Inv s)
    (h1 : t.requestQueue = s.requestQueue)
    (h2 : t.responseHandlers = s.responseHandlers)
    (h3 : t.inFlight = s.inFlight)
    (h4 : t.written = s.written)
    (h5 : t.issued = s.issued) : Inv t := by
  refine ⟨?_, ?_, ?_, ?_, ?_, ?_, ?_, ?_⟩ <;>
    simp only [h1, h2, h3, h4, h5]
  · exact h.written_eq
  · exact h.written_le
  · exact h.inFlight_le
  · exact h.handlers_le
  · exact h.inFlight_head
  · exact h.handlers_inFlight
  · exact h.queue_idle
  · exact h.queue_busy

/-- Build `Inv` from explicit values of the five relevant components. -/
lemma inv_mk (t : EngineState) (q : List Req) (hl : List Handler) (fl : List Req)
    (w : List (List Nat)) (iss : List Req)
    (hq : t.requestQueue = q) (hh : t.responseHandlers = hl) (hf : t.inFlight = fl)
    (hw : t.written = w) (hi : t.issued = iss)
    (H1 : w = (iss.take w.length).map Req.frame)
    (H2 : w.length ≤ iss.length)
    (H3 : fl.length ≤ 1)
    (H4 : hl.length ≤ 1)
    (H5 : ∀ r, fl = [r] → q.head? = some r ∧ hl = [])
    (H6 : ∀ h hs, hl = h :: hs → fl = [])
    (H7 : (fl = [] ∧ hl = []) → q = iss.drop w.length)
    (H8 : ¬ (fl = [] ∧ hl = []) → q = iss.drop (w.length - 1) ∧ 1 ≤ w.length) :
    Inv t := by
  subst hq hh hf hw hi
  exact ⟨H1, H2, H3, H4, H5, H6, H7, H8⟩

lemma complete_eq_nil (s : EngineState) (h : s.requestQueue.tail = []) :
    complete s = { s with requestQueue := [] } := by
  simp [complete, h, writeNextRequest]

lemma complete_eq_cons (s : EngineState) (r : Req) (l : List Req)
    (h : s.requestQueue.tail = r :: l) :
    complete s = { s with requestQueue := r :: l,
                          inFlight := s.inFlight ++ [r],
                          written := s.written ++ [r.frame] } := by
  simp [complete, h, writeNextRequest]

lemma complete_responseHandlers (s : EngineState) :
    (complete s).responseHandlers = s.responseHandlers := by
  cases h : s.requestQueue.tail with
  | nil => rw [complete_eq_nil s h]
  | cons r l => rw [complete_eq_cons s r l h]

lemma complete_responseBuffer (s : EngineState) :
    (complete s).responseBuffer = s.responseBuffer := by
  cases h : s.requestQueue.tail with
  | nil => rw [complete_eq_nil s h]
  | cons r l => rw [complete_eq_cons s r l h]

/-- Running the completion continuation preserves the invariant, given the
state it runs from: nothing outstanding, no handler pending, and the head
request (already dispatched) still at the front of the queue. -/
lemma inv_complete (s : EngineState)
    (hA : s.written = (s.issued.take s.written.length).map Req.frame)
    (hB : s.written.length ≤ s.issued.length)
    (hIF : s.inFlight = [])
    (hH : s.responseHandlers = [])
    (hQ : s.requestQueue = s.issued.drop (s.written.length - 1))
    (hn : 1 ≤ s.written.length) :
    Inv (complete s) := by
  have htail : s.requestQueue.tail = s.issued.drop s.written.length := by
    rw [hQ, List.tail_drop]
    congr 1
    omega
  cases hdrop : s.issued.drop s.written.length with
  | nil =>
      rw [complete_eq_nil s (htail.trans hdrop)]
      refine inv_mk _ [] s.responseHandlers s.inFlight s.written s.issued
        rfl rfl rfl rfl rfl hA hB (by simp [hIF]) (by simp [hH]) ?_ ?_ ?_ ?_
      · intro r hr
        rw [hIF] at hr
        cases hr
      · intro h hs hh
        rw [hH] at hh
        cases hh
      · intro _
        exact hdrop.symm
      · intro hc
        exact absurd ⟨hIF, hH⟩ hc
  | cons r2 l2 =>
      rw [complete_eq_cons s r2 l2 (htail.trans hdrop)]
      have hlt : s.written.length < s.issued.length := by
        rcases Nat.lt_or_ge s.written.length s.issued.length with h | h
        · exact h
        · rw [List.drop_eq_nil_iff.mpr h] at hdrop
          cases hdrop
      have htake : s.issued.take (s.written.length + 1) =
          s.issued.take s.written.length ++ [r2] := by
        rw [List.take_add s.issued s.written.length 1, hdrop]
        rfl
      refine inv_mk _ (r2 :: l2) s.responseHandlers (s.inFlight ++ [r2])
        (s.written ++ [r2.frame]) s.issued
        rfl rfl rfl rfl rfl ?_ ?_ (by simp [hIF]) (by simp [hH]) ?_ ?_ ?_ ?_
      · rw [List.length_append, List.length_cons, List.length_nil, htake,
          List.map_append, ← hA]
        rfl
      · simp only [List.length_append, List.length_cons, List.length_nil]
        omega
      · intro r hr
        rw [hIF, List.nil_append] at hr
        have : r2 = r := by simpa using hr
        subst this
        exact ⟨rfl, hH⟩
      · intro h hs hh
        rw [hH] at hh
        cases hh
      · intro hc
        rw [hIF, List.nil_append] at hc
        cases hc.1
      · intro _
        refine ⟨?_, by simp⟩
        simp only [List.length_append, List.length_cons, List.length_nil,
          Nat.add_sub_cancel]
        exact hdrop.symm

lemma request_closed (frame : List Nat) (kind : ReqKind) (s : EngineState)
    (h : s.serialOpen = false) :
    request frame kind s =
      { s with log := s.log ++ [(s.nextId, .rejected .serialPortClosed)],
               nextId := s.nextId + 1 } := by
  simp [request, h]

lemma request_open_empty (frame : List Nat) (kind : ReqKind) (s : EngineState)
    (h : s.serialOpen = true) (hq : s.requestQueue = []) :
    request frame kind s =
      { s with requestQueue := [⟨s.nextId, frame, kind⟩],
               issued := s.issued ++ [⟨s.nextId, frame, kind⟩],
               nextId := s.nextId + 1,
               inFlight := s.inFlight ++ [⟨s.nextId, frame, kind⟩],
               written := s.written ++ [frame] } := by
  simp [request, h, hq, writeNextRequest]

lemma request_open_cons (frame : List Nat) (kind : ReqKind) (s : EngineState)
    (q0 : Req) (qrest : List Req)
    (h : s.serialOpen = true) (hq : s.requestQueue = q0 :: qrest) :
    request frame kind s =
      { s with requestQueue := s.requestQueue ++ [⟨s.nextId, frame, kind⟩],
               issued := s.issued ++ [⟨s.nextId, frame, kind⟩],
               nextId := s.nextId + 1 } := by
  simp [request, h, hq]

lemma writeDone_err (s : EngineState) (rr : Req) (rest : List Req)
    (hif : s.inFlight = rr :: rest) :
    writeDone false s =
      { s with inFlight := rest,
               requestQueue := s.requestQueue.tail,
               log := s.log ++ [(rr.id, .rejected .writeError)] } := by
  simp [writeDone, hif]

lemma writeDone_ok_forget (s : EngineState) (rr : Req) (rest : List Req)
    (hif : s.inFlight = rr :: rest) (hk : rr.kind = .forget) :
    writeDone true s =
      { complete { s with inFlight := rest } with
          log := (complete { s with inFlight := rest }).log ++
            [(rr.id, .resolved [])] } := by
  simp [writeDone, hif, hk]

lemma writeDone_ok_response (s : EngineState) (rr : Req) (rest : List Req)
    (len : Nat) (hif : s.inFlight = rr :: rest) (hk : rr.kind = .response len) :
    writeDone true s =
      { s with inFlight := rest,
               responseHandlers := s.responseHandlers ++ [⟨rr.id, len⟩] } := by
  simp [writeDone, hif, hk]

lemma inv_issue (frame : List Nat) (kind : ReqKind) (s : EngineState)
    (hs : Inv s) : Inv (step (.issue frame kind) s) := by
  show Inv (request frame kind s)
  by_cases hopen : s.serialOpen = true
  case neg =>
    have h : s.serialOpen = false := by
      revert hopen
      cases s.serialOpen <;> simp
    rw [request_closed frame kind s h]
    exact inv_transfer hs rfl rfl rfl rfl rfl
  case pos =>
    cases hq : s.requestQueue with
    | nil =>
        have hIF : s.inFlight = [] := by
          cases hif : s.inFlight with
          | nil => rfl
          | cons r rest =>
              have hle := hs.inFlight_le
              rw [hif] at hle
              have hr0 : rest = [] := by
                simpa using hle
              subst hr0
              have hhd := (hs.inFlight_head r hif).1
              rw [hq] at hhd
              cases hhd
        have hH : s.responseHandlers = [] := by
          cases hh : s.responseHandlers with
          | nil => rfl
          | cons h hrest =>
              obtain ⟨hq1, hn1⟩ := hs.queue_busy (by simp [hh])
              rw [hq] at hq1
              have h4 : s.issued.length ≤ s.written.length - 1 :=
                List.drop_eq_nil_iff.mp hq1.symm
              have h5 := hs.written_le
              omega
        have hn : s.written.length = s.issued.length := by
          have hq1 := hs.queue_idle ⟨hIF, hH⟩
          rw [hq] at hq1
          have h4 : s.issued.length ≤ s.written.length :=
            List.drop_eq_nil_iff.mp hq1.symm
          have h5 := hs.written_le
          omega
        rw [request_open_empty frame kind s hopen hq]
        refine inv_mk _ [⟨s.nextId, frame, kind⟩] s.responseHandlers
          (s.inFlight ++ [⟨s.nextId, frame, kind⟩]) (s.written ++ [frame])
          (s.issued ++ [⟨s.nextId, frame, kind⟩])
          rfl rfl rfl rfl rfl ?_ ?_ (by simp [hIF]) (by simp [hH]) ?_ ?_ ?_ ?_
        · have e1 : (s.issued ++ [(⟨s.nextId, frame, kind⟩ : Req)]).take
              ((s.written ++ [frame]).length) =
              s.issued ++ [⟨s.nextId, frame, kind⟩] := by
            apply List.take_of_length_le
            simp [hn]
          rw [e1, List.map_append, hs.written_eq, hn, List.take_length]
          rfl
        · simp [hn]
        · intro r hr
          rw [hIF, List.nil_append] at hr
          have : (⟨s.nextId, frame, kind⟩ : Req) = r := by simpa using hr
          subst this
          exact ⟨rfl, hH⟩
        · intro h hs' hh
          rw [hH] at hh
          cases hh
        · intro hc
          exact absurd hc.1 (by simp [hIF])
        · intro _
          constructor
          · have e3 : (s.written ++ [frame]).length - 1 = s.issued.length := by
              simp [hn]
            rw [e3, List.drop_append_of_le_length (le_refl _)]
            simp
          · simp
    | cons q0 qrest =>
        rw [request_open_cons frame kind s q0 qrest hopen hq]
        refine inv_mk _ (s.requestQueue ++ [⟨s.nextId, frame, kind⟩])
          s.responseHandlers s.inFlight s.written
          (s.issued ++ [⟨s.nextId, frame, kind⟩])
          rfl rfl rfl rfl rfl ?_ ?_ hs.inFlight_le hs.handlers_le ?_ ?_ ?_ ?_
        · rw [List.take_append_of_le_length hs.written_le]
          exact hs.written_eq
        · have := hs.written_le
          simp only [List.length_append, List.length_cons, List.length_nil]
          omega
        · intro r hr
          obtain ⟨hhd, hhl⟩ := hs.inFlight_head r hr
          refine ⟨?_, hhl⟩
          rw [hq] at hhd ⊢
          simpa using hhd
        · intro h hs' hh
          exact hs.handlers_inFlight h hs' hh
        · intro hc
          rw [hs.queue_idle hc, List.drop_append_of_le_length hs.written_le]
        · intro hc
          obtain ⟨hq1, hn1⟩ := hs.queue_busy hc
          have hle : s.written.length - 1 ≤ s.issued.length := by
            have := hs.written_le
            omega
          rw [hq1, List.drop_append_of_le_length hle]
          exact ⟨rfl, hn1⟩

lemma inv_writeDone (ok : Bool) (s : EngineState) (hs : Inv s) :
    Inv (step (.writeDone ok) s) := by
  show Inv (writeDone ok s)
  cases hif : s.inFlight with
  | nil =>
      have heq : writeDone ok s = s := by
        simp [writeDone, hif]
      rw [heq]
      exact hs
  | cons rr rest =>
      have hrest : rest = [] := by
        have hle := hs.inFlight_le
        rw [hif] at hle
        simpa using hle
      subst hrest
      obtain ⟨hhd, hH⟩ := hs.inFlight_head rr hif
      obtain ⟨hQ, hn⟩ := hs.queue_busy (by simp [hif])
      obtain ⟨qt, hqt⟩ : ∃ qt, s.requestQueue = rr :: qt := by
        cases hq2 : s.requestQueue with
        | nil =>
            rw [hq2] at hhd
            cases hhd
        | cons a l =>
            rw [hq2] at hhd
            have ha : a = rr := by simpa using hhd
            subst ha
            exact ⟨l, rfl⟩
      have htail : qt = s.issued.drop s.written.length := by
        have e1 : (s.issued.drop (s.written.length - 1)).tail = qt := by
          rw [← hQ, hqt, List.tail_cons]
        rw [List.tail_drop] at e1
        have e2 : s.written.length - 1 + 1 = s.written.length := by omega
        rw [e2] at e1
        exact e1.symm
      cases ok with
      | false =>
          rw [writeDone_err s rr [] hif]
          refine inv_mk _ s.requestQueue.tail s.responseHandlers []
            s.written s.issued rfl rfl rfl rfl rfl
            hs.written_eq hs.written_le (by simp) (by simp [hH]) ?_ ?_ ?_ ?_
          · intro r hr
            cases hr
          · intro h hs' hh
            rfl
          · intro _
            rw [hqt]
            exact htail
          · intro hc
            exact absurd ⟨rfl, hH⟩ hc
      | true =>
          cases hk : rr.kind with
          | forget =>
              rw [writeDone_ok_forget s rr [] hif hk]
              have hinv2 : Inv (complete { s with inFlight := [] }) :=
                inv_complete { s with inFlight := [] }
                  hs.written_eq hs.written_le rfl hH hQ hn
              exact inv_transfer hinv2 rfl rfl rfl rfl rfl
          | response len =>
              rw [writeDone_ok_response s rr [] len hif hk]
              refine inv_mk _ s.requestQueue [⟨rr.id, len⟩] []
                s.written s.issued rfl (by simp [hH]) rfl rfl rfl
                hs.written_eq hs.written_le (by simp) (by simp) ?_ ?_ ?_ ?_
              · intro r hr
                cases hr
              · intro h hs' hh
                rfl
              · intro hc
                cases hc.2
              · intro _
                exact ⟨hQ, hn⟩

lemma inv_data (bytes : List Nat) (s : EngineState) (hs : Inv s) :
    Inv (step (.data bytes) s) := by
  show Inv (onSerialPortData bytes s)
  cases hh : s.responseHandlers with
  | nil =>
      have heq : onSerialPortData bytes s = s := by
        simp [onSerialPortData, hh]
      rw [heq]
      exact hs
  | cons hd htl =>
      have htl0 : htl = [] := by
        have hle := hs.handlers_le
        rw [hh] at hle
        simpa using hle
      subst htl0
      have hIF : s.inFlight = [] := hs.handlers_inFlight hd [] hh
      obtain ⟨hQ, hn⟩ := hs.queue_busy (by simp [hh])
      by_cases hlen : (s.responseBuffer ++ bytes).length < hd.responseLength
      · have heq : onSerialPortData bytes s =
            { s with responseBuffer := s.responseBuffer ++ bytes } := by
          simp only [onSerialPortData, hh]
          rw [if_pos hlen]
        rw [heq]
        exact inv_transfer hs rfl rfl rfl rfl rfl
      · have hinv2 : Inv (complete
            { s with responseHandlers := []
                     responseBuffer :=
                       (s.responseBuffer ++ bytes).drop hd.responseLength }) :=
          inv_complete _ hs.written_eq hs.written_le hIF rfl hQ hn
        simp only [onSerialPortData, hh]
        rw [if_neg hlen]
        split
        · exact inv_transfer hinv2 rfl rfl rfl rfl rfl
        · exact inv_transfer hinv2 rfl rfl rfl rfl rfl

lemma inv_timeout (hid : Nat) (s : EngineState) (hs : Inv s) :
    Inv (step (.timeout hid) s) := by
  show Inv (timeoutFire hid s)
  by_cases hfilter : (s.responseHandlers.filter (fun h => h.reqId == hid)).isEmpty
      = true
  · have heq : timeoutFire hid s = s := by
      simp [timeoutFire, hfilter]
    rw [heq]
    exact hs
  · cases hh : s.responseHandlers with
    | nil =>
        rw [hh] at hfilter
        simp at hfilter
    | cons hd htl =>
        have htl0 : htl = [] := by
          have hle := hs.handlers_le
          rw [hh] at hle
          simpa using hle
        subst htl0
        have hmatch : (hd.reqId == hid) = true := by
          by_contra hne
          rw [hh] at hfilter
          simp [List.filter, hne] at hfilter
        have herase : s.responseHandlers.eraseP (fun h => h.reqId == hid) = [] := by
          rw [hh]
          simp [List.eraseP_cons, hmatch]
        have hIF : s.inFlight = [] := hs.handlers_inFlight hd [] hh
        obtain ⟨hQ, hn⟩ := hs.queue_busy (by simp [hh])
        have hinv2 : Inv (complete { s with responseHandlers := [] }) :=
          inv_complete _ hs.written_eq hs.written_le hIF rfl hQ hn
        have heq : timeoutFire hid s =
            { complete { s with responseHandlers := [] } with
                log := (complete { s with responseHandlers := [] }).log ++
                  [(hid, .rejected .responseTimeout)] } := by
          simp [timeoutFire, hfilter, herase]
        rw [heq]
        exact inv_transfer hinv2 rfl rfl rfl rfl rfl

lemma inv_init : Inv initState := by
  refine ⟨rfl, by simp [initState], by simp [initState], by simp [initState],
    ?_, ?_, ?_, ?_⟩
  · intro r hr
    cases hr
  · intro h hs hh
    cases hh
  · intro _
    rfl
  · intro hc
    exact absurd ⟨rfl, rfl⟩ hc

lemma inv_step (e : Event) (s : EngineState) (hs : Inv s) : Inv (step e s) := by
  cases e with
  | issue frame kind => exact inv_issue frame kind s hs
  | writeDone ok => exact inv_writeDone ok s hs
  | data bytes => exact inv_data bytes s hs
  | timeout hid => exact inv_timeout hid s hs
  | portOpen => exact inv_transfer hs rfl rfl rfl rfl rfl
  | portClose => exact inv_transfer hs rfl rfl rfl rfl rfl

lemma inv_reachable {s : EngineState} (h : Reachable s) : Inv s := by
  induction h with
  | init => exact inv_init
  | step e _ ih => exact inv_step e _ ih

/-! ### Claims -/

/-- C1: the verification step of `trySetMultipleTargets` can never reject:
destructuring `{channel, target}` from the numeric elements of
`options.targets` yields `undefined` for both, so the `forEach` compares
`actualTargets[undefined] !== undefined` — `undefined !== undefined` — which
is false for every element.  In particular, for
`trySetMultipleTargets(device=12, channel=0, targets=[6000])` whose
successful readback reports position 5999 on channel 0, the operation
resolves even though the readback differs from the requested target, where
the claim requires a rejection carrying the mismatch. -/
theorem trySetMultipleTargets_verification_never_rejects :
    (∀ device targets actualTargets,
        verifyMultipleTargets device targets actualTargets = .ok ()) ∧
    verifyMultipleTargets 12 [6000] readbackAt0 = .ok () ∧
    readbackAt0 0 ≠ some 6000 := by
  refine ⟨fun device targets actualTargets => ?_, rfl, by decide⟩
  unfold verifyMultipleTargets
  have h : targets.find? (mismatchCheck actualTargets) = none :=
    List.find?_eq_none.mpr (fun x _ => by simp [mismatchCheck_false])
  rw [h]

/-- C2: on a write failure the head request is dequeued exactly once and its
operation rejects with the write error, but the queue does **not** attempt
the next queued request.  Concrete run: the port opens, `setTarget(12,0,6000)`
and `setTarget(12,1,7000)` are issued, and the head write fails.  Only the
first frame ever reached the transport, the first operation rejected with the
write error, the second request is still queued undispatched, and even
issuing a further `setTarget(12,2,8000)` leaves it undispatched — the claim
instead requires the next queued request's write to be attempted. -/
theorem writeError_dequeues_once_but_stalls_queue :
    (runEvents [.portOpen, setTargetEvent 12 0 6000, setTargetEvent 12 1 7000,
        .writeDone false]).written = [setTargetFrame 12 0 6000] ∧
    (runEvents [.portOpen, setTargetEvent 12 0 6000, setTargetEvent 12 1 7000,
        .writeDone false]).log = [(0, .rejected .writeError)] ∧
    (runEvents [.portOpen, setTargetEvent 12 0 6000, setTargetEvent 12 1 7000,
        .writeDone false]).requestQueue =
      [{ id := 1, frame := setTargetFrame 12 1 7000, kind := .forget }] ∧
    (step (setTargetEvent 12 2 8000)
        (runEvents [.portOpen, setTargetEvent 12 0 6000, setTargetEvent 12 1 7000,
          .writeDone false])).written = [setTargetFrame 12 0 6000] := by
  decide

/-- C5 counterexample: the frame the code builds for
`setTarget(device=12, channel=0, target=6000)` is not the claimed
`[0xAA, 12, 0x04, 0, 0x60, 0x2E]`: its fifth byte `6000 & 0x7F` equals
`0x70 = 112`, not `0x60 = 96`. -/
theorem setTargetFrame_6000_is_not_claimed_bytes :
    setTargetFrame 12 0 6000 ≠ [0xAA, 12, 0x04, 0, 0x60, 0x2E] ∧
    6000 &&& 0x7F = 0x70 := by
  decide

/-- C5 (amended): `setTarget(device=12, channel=0, target=6000)` writes
exactly the frame `[0xAA, 12, 0x04, 0, 0x70, 0x2E]` to the Transport, with
the fifth byte equal to `6000 & 0x7F` and the sixth byte equal to
`(6000 >> 7) & 0x7F`. -/
theorem setTarget_6000_writes_exact_frame :
    (runEvents [.portOpen, setTargetEvent 12 0 6000]).written =
      [[0xAA, 12, 0x04, 0, 0x70, 0x2E]] ∧
    (0x70 : Nat) = 6000 &&& 0x7F ∧ (0x2E : Nat) = (6000 >>> 7) &&& 0x7F := by
  decide

/-- C6: `getMultiplePositions` reads the listed channels strictly in listing
order: when every channel's read succeeds it resolves with the
channel-to-position mapping in that order; when the channel list splits as
`pre ++ c :: post` with every read in `pre` succeeding and `c`'s read
failing, exactly the reads for `pre ++ [c]` are issued — none for the
remaining `post` — and the whole call rejects with the message identifying
the failing device and channel. -/
theorem getMultiplePositions_sequential (device : Nat)
    (oracle : Nat → Except String Nat) (channels : List Nat) :
    ((∀ c ∈ channels, ∃ q, oracle c = .ok q) →
      getMultiplePositions device oracle channels =
        (channels, .ok (channels.map (fun c => (c, posOf oracle c))))) ∧
    (∀ pre c post msg, channels = pre ++ c :: post →
      (∀ x ∈ pre, ∃ q, oracle x = .ok q) → oracle c = .error msg →
      getMultiplePositions device oracle channels =
        (pre ++ [c], .error (getMultiplePositionsFailMsg device c msg))) := by
  refine ⟨fun hall => getMultiplePositions_ok device oracle channels hall,
          fun pre c post msg hch hpre hc => ?_⟩
  subst hch
  exact getMultiplePositions_fail device oracle pre c post msg hpre hc

/-- C6 witness: `getMultiplePositions(device=5, channels=[0,1,2])` where
channel 1's read times out issues reads only for channels 0 and 1 and
rejects identifying device 5 and channel 1. -/
theorem getMultiplePositions_sequential_witness :
    getMultiplePositions 5 oracleFailAt1 [0, 1, 2] =
      ([0, 1], .error "Failed to get position for channel 5:1: Response timeout.") := by
  have h := (getMultiplePositions_sequential 5 oracleFailAt1 [0, 1, 2]).2
      [0] 1 [2] "Response timeout." rfl
      (fun x hx => by
        have hx0 : x = 0 := by simpa using hx
        exact ⟨100, by simp [oracleFailAt1, hx0]⟩)
      rfl
  simpa [getMultiplePositionsFailMsg] using h

/-- C7: a Control API operation issued while the serial port is not open
rejects synchronously with the serial-port-closed error and mutates no
engine state: the request queue, the response-handler list, the response
buffer, the write trace and the outstanding writes are exactly as before. -/
theorem closedPort_rejects_without_mutation (s : EngineState) (frame : List Nat)
    (kind : ReqKind) (h : s.serialOpen = false) :
    (step (.issue frame kind) s).requestQueue = s.requestQueue ∧
    (step (.issue frame kind) s).responseHandlers = s.responseHandlers ∧
    (step (.issue frame kind) s).responseBuffer = s.responseBuffer ∧
    (step (.issue frame kind) s).written = s.written ∧
    (step (.issue frame kind) s).inFlight = s.inFlight ∧
    (step (.issue frame kind) s).log =
      s.log ++ [(s.nextId, .rejected .serialPortClosed)] := by
  simp [step, request, h]

/-- C7 witness: the engine starts with the port closed; a `getPosition(12,0)`
issued there rejects with the serial-port-closed error and every state
component is untouched. -/
theorem closedPort_rejects_without_mutation_witness :
    (step (.issue (getPositionFrame 12 0) (.response 2)) initState).requestQueue =
        initState.requestQueue ∧
    (step (.issue (getPositionFrame 12 0) (.response 2)) initState).log =
      [(0, .rejected .serialPortClosed)] := by
  have h := closedPort_rejects_without_mutation initState (getPositionFrame 12 0)
      (.response 2) rfl
  exact ⟨h.1, h.2.2.2.2.2⟩

/-- C8: a position `p ≤ 65535` delivered to `getPosition` as the two response
bytes `p & 0xFF` (low) and `p >> 8` (high) decodes back to exactly `p`. -/
theorem getPosition_decode_roundtrip (p : Nat) (h : p ≤ 65535) :
    decodePosition [p &&& 0xFF, p >>> 8] = p := by
  rw [decodePosition_pair, Nat.shiftLeft_eq]
  have h1 : p &&& 255 = p % 256 := Nat.and_pow_two_sub_one_eq_mod p 8
  have h2 : p >>> 8 = p / 256 := Nat.shiftRight_eq_div_pow p 8
  have h3 : (2 : Nat) ^ 8 = 256 := by norm_num
  rw [h1, h2, h3]
  omega

/-- C8 witness: response bytes `[0x10, 0x17]` decode to `5904`. -/
theorem getPosition_decode_roundtrip_witness :
    decodePosition [0x10, 0x17] = 5904 := by
  have h := getPosition_decode_roundtrip 5904 (by decide)
  have e1 : 5904 &&& 0xFF = 0x10 := by decide
  have e2 : 5904 >>> 8 = 0x17 := by decide
  rw [e1, e2] at h
  exact h

/-- C10: inbound data delivered while the response-handler list is empty is
dropped before touching the frame buffer: the entire engine state — request
queue, handler list and frame buffer included — is exactly as before the
delivery, so the bytes can never reach a handler registered later. -/
theorem data_without_handler_dropped (s : EngineState) (bytes : List Nat)
    (h : s.responseHandlers = []) : step (.data bytes) s = s := by
  simp [step, onSerialPortData, h]

/-- C10 witness: three bytes delivered to the freshly constructed engine (no
handler outstanding) leave the state unchanged. -/
theorem data_without_handler_dropped_witness :
    step (.data [1, 2, 3]) initState = initState :=
  data_without_handler_dropped initState [1, 2, 3] rfl

/-- C3: in every reachable engine state, the trace of frames handed to the
Transport is exactly the sequence of frames of the first `written.length`
issued operations, in issue order (so writes happen in the exact order the
operations were issued); at most one write to the Transport is outstanding
at any instant; and an outstanding write is always for the request currently
at the head of the queue — a new write can begin only once the previous
request's completion continuation has removed it from the head. -/
theorem writes_ordered_and_single (s : EngineState) (h : Reachable s) :
    s.written = (s.issued.take s.written.length).map Req.frame ∧
    s.written.length ≤ s.issued.length ∧
    s.inFlight.length ≤ 1 ∧
    (∀ r, s.inFlight = [r] → s.requestQueue.head? = some r) := by
  have hinv := inv_reachable h
  exact ⟨hinv.written_eq, hinv.written_le, hinv.inFlight_le,
    fun r hr => (hinv.inFlight_head r hr).1⟩

/-- C3 witness: a concrete reachable state (port opened, one `setTarget`
issued) satisfies the ordering and single-outstanding-write properties. -/
theorem writes_ordered_and_single_witness :
    (step (setTargetEvent 12 0 6000) (step .portOpen initState)).written =
      ((step (setTargetEvent 12 0 6000) (step .portOpen initState)).issued.take
        (step (setTargetEvent 12 0 6000)
          (step .portOpen initState)).written.length).map Req.frame ∧
    (step (setTargetEvent 12 0 6000) (step .portOpen initState)).inFlight.length
      ≤ 1 := by
  have h := writes_ordered_and_single
    (step (setTargetEvent 12 0 6000) (step .portOpen initState))
    (Reachable.step (setTargetEvent 12 0 6000) (Reachable.step .portOpen
      Reachable.init))
  exact ⟨h.1, h.2.2.1⟩

/-- C4: when the response timer fires for the outstanding handler while a
further request is queued behind the head, the handler is removed from the
handler list (by identity), its callback rejects the operation with the
response-timeout error, and the completion continuation advances the queue:
the head is removed, the next queued request's frame is written to the
Transport, and the queue is not stalled. -/
theorem timeout_rejects_and_advances (s : EngineState) (hdl : Handler)
    (r1 r2 : Req) (rest : List Req)
    (h1 : s.responseHandlers = [hdl])
    (h2 : s.requestQueue = r1 :: r2 :: rest) :
    (step (.timeout hdl.reqId) s).responseHandlers = [] ∧
    (step (.timeout hdl.reqId) s).log =
      s.log ++ [(hdl.reqId, .rejected .responseTimeout)] ∧
    (step (.timeout hdl.reqId) s).written = s.written ++ [r2.frame] ∧
    (step (.timeout hdl.reqId) s).requestQueue = r2 :: rest := by
  have ht : step (.timeout hdl.reqId) s =
      { s with responseHandlers := []
               requestQueue := r2 :: rest
               inFlight := s.inFlight ++ [r2]
               written := s.written ++ [r2.frame]
               log := s.log ++ [(hdl.reqId, .rejected .responseTimeout)] } := by
    show timeoutFire hdl.reqId s = _
    simp [timeoutFire, h1, h2, complete, writeNextRequest, List.eraseP_cons]
  rw [ht]
  exact ⟨rfl, rfl, rfl, rfl⟩

/-- C4 witness: with the port open, a `getPosition(12,0)` dispatched (its
handler pending) and a `setTarget(12,1,7000)` queued behind it, firing the
response timer removes the handler, rejects the read with the timeout error,
and writes the queued `setTarget` frame — the queue advances. -/
theorem timeout_rejects_and_advances_witness :
    (step (.timeout 0) (runEvents [.portOpen, getPositionEvent 12 0,
        setTargetEvent 12 1 7000, .writeDone true])).responseHandlers = [] ∧
    (step (.timeout 0) (runEvents [.portOpen, getPositionEvent 12 0,
        setTargetEvent 12 1 7000, .writeDone true])).log =
      (runEvents [.portOpen, getPositionEvent 12 0,
        setTargetEvent 12 1 7000, .writeDone true]).log ++
        [(0, .rejected .responseTimeout)] ∧
    (step (.timeout 0) (runEvents [.portOpen, getPositionEvent 12 0,
        setTargetEvent 12 1 7000, .writeDone true])).written =
      (runEvents [.portOpen, getPositionEvent 12 0,
        setTargetEvent 12 1 7000, .writeDone true]).written ++
        [setTargetFrame 12 1 7000] ∧
    (step (.timeout 0) (runEvents [.portOpen, getPositionEvent 12 0,
        setTargetEvent 12 1 7000, .writeDone true])).requestQueue =
      [{ id := 1, frame := setTargetFrame 12 1 7000, kind := .forget }] :=
  timeout_rejects_and_advances
    (runEvents [.portOpen, getPositionEvent 12 0,
      setTargetEvent 12 1 7000, .writeDone true])
    { reqId := 0, responseLength := 2 }
    { id := 0, frame := getPositionFrame 12 0, kind := .response 2 }
    { id := 1, frame := setTargetFrame 12 1 7000, kind := .forget }
    [] (by decide) (by decide)

/-- C9: when an inbound delivery completes the (sole) outstanding handler's
expected frame and leftover bytes remain past the extracted frame, no handler
is outstanding afterwards and all leftover bytes are discarded: the frame
buffer is left empty. -/
theorem leftover_bytes_discarded (s : EngineState) (hdl : Handler)
    (bytes : List Nat) (h1 : s.responseHandlers = [hdl])
    (h2 : hdl.responseLength < (s.responseBuffer ++ bytes).length) :
    (step (.data bytes) s).responseHandlers = [] ∧
    (step (.data bytes) s).responseBuffer = [] := by
  have hlen : ¬ (s.responseBuffer ++ bytes).length < hdl.responseLength := by
    omega
  have hne : (s.responseBuffer ++ bytes).drop hdl.responseLength ≠ [] := by
    rw [Ne, List.drop_eq_nil_iff]
    omega
  show (onSerialPortData bytes s).responseHandlers = [] ∧
       (onSerialPortData bytes s).responseBuffer = []
  simp only [onSerialPortData, h1]
  rw [if_neg hlen]
  simp [complete_responseHandlers, complete_responseBuffer, hne]

/-- C9 witness: a pending 2-byte `getPosition` handler receiving the 3-byte
delivery `[7, 8, 9]` is satisfied, and the leftover byte is discarded leaving
the buffer empty. -/
theorem leftover_bytes_discarded_witness :
    (step (.data [7, 8, 9]) (runEvents [.portOpen, getPositionEvent 12 0,
        .writeDone true])).responseHandlers = [] ∧
    (step (.data [7, 8, 9]) (runEvents [.portOpen, getPositionEvent 12 0,
        .writeDone true])).responseBuffer = [] :=
  leftover_bytes_discarded
    (runEvents [.portOpen, getPositionEvent 12 0, .writeDone true])
    { reqId := 0, responseLength := 2 } [7, 8, 9] (by decide) (by decide)

end Maestro
